import Mathlib

/-!
Verification of the chess rules engine in `src/components/st_chessboard.py`
(repository `chess_analyzer`).

The board is embedded exactly as in the source: an 8x8 grid of piece strings
("P", "p", ..., "" for an empty square), row 0 being the black back rank.
The implicit Streamlit session state that the source reads and writes
(`last_move`, `king_moved`, `rook_moved`, `captured_pieces`) is made explicit
as a `Session` record threaded through the functions that consult it.
Coordinates are integers, as in the source; every board subscript performed by
the source is guarded by a bounds check, so the out-of-range behaviour of the
access helper `cell` is never exercised by the embedded code.
-/

namespace ChessAnalyzer

/-- A board is a list of rows of piece strings, as in the source. -/
abbrev Board := List (List String)

/-- Record of the most recently applied move (source: `st.session_state.last_move`). -/
structure LastMove where
  piece : String
  from_row : Int
  from_col : Int
  to_row : Int
  to_col : Int
deriving DecidableEq, Repr

/-- The Streamlit session state that the engine reads and writes, made explicit. -/
structure Session where
  last_move : Option LastMove
  king_moved_white : Bool
  king_moved_black : Bool
  rook_moved_white_kingside : Bool
  rook_moved_white_queenside : Bool
  rook_moved_black_kingside : Bool
  rook_moved_black_queenside : Bool
  captured_white : List String
  captured_black : List String
deriving DecidableEq, Repr

/-- Lookup of `st.session_state.king_moved.get(color, False)`. -/
def king_moved_of (st : Session) (color : String) : Bool :=
  if color = "white" then st.king_moved_white
  else if color = "black" then st.king_moved_black
  else false

/-- Lookup of `st.session_state.rook_moved.get(color, \x7b\x7d).get(side, False)`. -/
def rook_moved_of (st : Session) (color side : String) : Bool :=
  if color = "white" then
    (if side = "kingside" then st.rook_moved_white_kingside
     else if side = "queenside" then st.rook_moved_white_queenside
     else false)
  else if color = "black" then
    (if side = "kingside" then st.rook_moved_black_kingside
     else if side = "queenside" then st.rook_moved_black_queenside
     else false)
  else false

/-- Assignment `st.session_state.king_moved[color] = v`. -/
def set_king_moved (st : Session) (color : String) (v : Bool) : Session :=
  if color = "white" then { st with king_moved_white := v }
  else if color = "black" then { st with king_moved_black := v }
  else st

/-- Assignment `st.session_state.rook_moved[color][side] = v`. -/
def set_rook_moved (st : Session) (color side : String) (v : Bool) : Session :=
  if color = "white" then
    (if side = "kingside" then { st with rook_moved_white_kingside := v }
     else if side = "queenside" then { st with rook_moved_white_queenside := v }
     else st)
  else if color = "black" then
    (if side = "kingside" then { st with rook_moved_black_kingside := v }
     else if side = "queenside" then { st with rook_moved_black_queenside := v }
     else st)
  else st

/-- Statement `st.session_state.captured_pieces[color].append(p)`. -/
def push_captured (st : Session) (color : String) (p : String) : Session :=
  if color = "white" then { st with captured_white := st.captured_white ++ [p] }
  else if color = "black" then { st with captured_black := st.captured_black ++ [p] }
  else st

/-- Board subscript `board[row][col]`. Every access made by the embedded source
is under a `0 <= index < 8` guard, so only the in-range behaviour matters. -/
def cell (board : Board) (row col : Int) : String :=
  (board.getD row.toNat []).getD col.toNat ""

/-- Board subscript assignment `board[row][col] = v`. -/
def setCell (board : Board) (row col : Int) (v : String) : Board :=
  board.set row.toNat ((board.getD row.toNat []).set col.toNat v)

/-- Python `s.lower()` on a piece string: lowers each character. -/
def strLower (s : String) : String := String.mk (s.data.map Char.toLower)

/-- Source `is_white_piece`: `piece.isupper() and piece != ""`. -/
def is_white_piece (piece : String) : Bool :=
  piece.data.all Char.isUpper && piece != ""

/-- Source `is_black_piece`: `piece.islower() and piece != ""`. -/
def is_black_piece (piece : String) : Bool :=
  piece.data.all Char.isLower && piece != ""

/-- Source `is_same_color`. -/
def is_same_color (piece1 piece2 : String) : Bool :=
  if piece1 = "" || piece2 = "" then false
  else (is_white_piece piece1 && is_white_piece piece2) ||
       (is_black_piece piece1 && is_black_piece piece2)

/-- The row-major enumeration of all 64 squares, matching the nested
`for row in range(8): for col in range(8)` loops of the source. -/
def squaresList : List (Int × Int) :=
  (List.range 8).flatMap (fun r => (List.range 8).map (fun c => ((r : Int), (c : Int))))

/-- The eight king directions, in source order. -/
def kingDirections : List (Int × Int) :=
  [(0, 1), (0, -1), (1, 0), (-1, 0), (1, 1), (1, -1), (-1, 1), (-1, -1)]

/-- The eight knight offsets, in source order. -/
def knightOffsets : List (Int × Int) :=
  [(-2, -1), (-2, 1), (-1, -2), (-1, 2), (1, -2), (1, 2), (2, -1), (2, 1)]

/-- Shared body of the `for dr, dc in ...` offset loops of `get_knight_moves`
and `get_basic_king_moves` (the source repeats this loop verbatim in both). -/
def offset_moves (board : Board) (row col : Int) (offs : List (Int × Int)) :
    List (Int × Int) :=
  let piece := cell board row col
  offs.filterMap (fun d =>
    let new_row := row + d.1
    let new_col := col + d.2
    if 0 ≤ new_row ∧ new_row < 8 ∧ 0 ≤ new_col ∧ new_col < 8 then
      let target_piece := cell board new_row new_col
      if target_piece = "" ∨ ¬ is_same_color piece target_piece then
        some (new_row, new_col)
      else none
    else none)

/-- Source `get_basic_king_moves`: one square in any direction, no castling. -/
def get_basic_king_moves (board : Board) (row col : Int) : List (Int × Int) :=
  offset_moves board row col kingDirections

/-- Source `get_knight_moves`. -/
def get_knight_moves (board : Board) (row col : Int) : List (Int × Int) :=
  offset_moves board row col knightOffsets

/-- Source `get_pawn_moves`, including the en passant clause that consults
`st.session_state.last_move`. -/
def get_pawn_moves (st : Session) (board : Board) (row col : Int) :
    List (Int × Int) :=
  let piece := cell board row col
  let is_white := is_white_piece piece
  let direction : Int := if is_white then -1 else 1
  let start_row : Int := if is_white then 6 else 1
  let fwd :=
    if 0 ≤ row + direction ∧ row + direction < 8 ∧
        cell board (row + direction) col = "" then
      (row + direction, col) ::
        (if row = start_row ∧ 0 ≤ row + direction + direction ∧
            row + direction + direction < 8 ∧
            cell board (row + direction + direction) col = "" then
          [(row + direction + direction, col)]
        else [])
    else []
  let diag := ([-1, 1] : List Int).filterMap (fun dc =>
    let new_row := row + direction
    let new_col := col + dc
    if 0 ≤ new_row ∧ new_row < 8 ∧ 0 ≤ new_col ∧ new_col < 8 then
      let target_piece := cell board new_row new_col
      if target_piece ≠ "" ∧ ¬ is_same_color piece target_piece then
        some (new_row, new_col)
      else none
    else none)
  let ep :=
    match st.last_move with
    | none => []
    | some last_move =>
      if strLower last_move.piece = "p" ∧
          (last_move.to_row - last_move.from_row).natAbs = 2 then
        let en_passant_rank : Int := if is_white then 3 else 4
        if row = en_passant_rank then
          if last_move.to_row = row ∧ (last_move.to_col - col).natAbs = 1 then
            let capture_row := last_move.to_row + direction
            let capture_col := last_move.to_col
            if 0 ≤ capture_row ∧ capture_row < 8 then [(capture_row, capture_col)]
            else []
          else []
        else []
      else []
  fwd ++ diag ++ ep

/-- One sliding ray of `get_rook_moves` or `get_bishop_moves`: the source
`for i in range(1, 8)` loop with its `break` statements, stepping from the
current square. -/
def ray_steps (board : Board) (piece : String) (dr dc : Int) :
    Int → Int → Nat → List (Int × Int)
  | _, _, 0 => []
  | r, c, fuel + 1 =>
    let new_row := r + dr
    let new_col := c + dc
    if 0 ≤ new_row ∧ new_row < 8 ∧ 0 ≤ new_col ∧ new_col < 8 then
      let target_piece := cell board new_row new_col
      if target_piece = "" then
        (new_row, new_col) :: ray_steps board piece dr dc new_row new_col fuel
      else if ¬ is_same_color piece target_piece then [(new_row, new_col)]
      else []
    else []

/-- Source `get_rook_moves`: ray casts along the 4 orthogonal directions. -/
def get_rook_moves (board : Board) (row col : Int) : List (Int × Int) :=
  let piece := cell board row col
  ([(0, 1), (0, -1), (1, 0), (-1, 0)] : List (Int × Int)).flatMap
    (fun d => ray_steps board piece d.1 d.2 row col 7)

/-- Source `get_bishop_moves`: ray casts along the 4 diagonal directions. -/
def get_bishop_moves (board : Board) (row col : Int) : List (Int × Int) :=
  let piece := cell board row col
  ([(1, 1), (1, -1), (-1, 1), (-1, -1)] : List (Int × Int)).flatMap
    (fun d => ray_steps board piece d.1 d.2 row col 7)

/-- Source `get_queen_moves`. -/
def get_queen_moves (board : Board) (row col : Int) : List (Int × Int) :=
  get_rook_moves board row col ++ get_bishop_moves board row col

/-- Source `get_possible_moves(board, row, col, include_castling=False)`:
the piece-kind dispatch with the king handled by `get_basic_king_moves`.
Defined separately so that `is_square_attacked` below can use it, exactly as
the source passes `include_castling=False` there to avoid recursion; the
full dispatch `get_possible_moves` further below agrees with it on
`include_castling = false` (lemma `get_possible_moves_false`). -/
def get_possible_moves_no_castle (st : Session) (board : Board) (row col : Int) :
    List (Int × Int) :=
  let piece := strLower (cell board row col)
  if piece = "p" then get_pawn_moves st board row col
  else if piece = "r" then get_rook_moves board row col
  else if piece = "n" then get_knight_moves board row col
  else if piece = "b" then get_bishop_moves board row col
  else if piece = "q" then get_queen_moves board row col
  else if piece = "k" then get_basic_king_moves board row col
  else []

/-- Source `is_square_attacked`: scans all 64 squares for a piece of
`by_color` whose non-castling moves contain the square. -/
def is_square_attacked (st : Session) (board : Board) (row col : Int)
    (by_color : String) : Bool :=
  squaresList.any (fun rc =>
    let piece := cell board rc.1 rc.2
    if piece = "" then false
    else
      let piece_color := if is_white_piece piece then "white" else "black"
      if piece_color ≠ by_color then false
      else decide ((row, col) ∈ get_possible_moves_no_castle st board rc.1 rc.2))

/-- Source `get_king_position`: first square (row-major) holding the king of
the given color. -/
def get_king_position (board : Board) (color : String) : Option (Int × Int) :=
  let king_piece := if color = "white" then "K" else "k"
  squaresList.find? (fun rc => cell board rc.1 rc.2 = king_piece)

/-- Source `is_in_check`: returns `false` when the side has no king. -/
def is_in_check (st : Session) (board : Board) (color : String) : Bool :=
  match get_king_position board color with
  | none => false
  | some king_pos =>
    let opponent_color := if color = "white" then "black" else "white"
    is_square_attacked st board king_pos.1 king_pos.2 opponent_color

/-- Source `get_king_moves`: the eight adjacent squares plus the castling
clause guarded by the session flags, rook presence, empty intervening
squares, and the attack checks. -/
def get_king_moves (st : Session) (board : Board) (row col : Int) :
    List (Int × Int) :=
  let piece := cell board row col
  let is_white := is_white_piece piece
  let color := if is_white then "white" else "black"
  let opponent := if is_white then "black" else "white"
  let basic := get_basic_king_moves board row col
  let starting_row : Int := if is_white then 7 else 0
  let castles :=
    if king_moved_of st color = false then
      if row = starting_row ∧ col = 4 then
        if is_in_check st board color = false then
          (if rook_moved_of st color "kingside" = false then
            if strLower (cell board starting_row 7) = "r" ∧
                is_same_color piece (cell board starting_row 7) then
              if cell board starting_row 5 = "" ∧ cell board starting_row 6 = "" then
                if is_square_attacked st board starting_row 5 opponent = false ∧
                    is_square_attacked st board starting_row 6 opponent = false then
                  [(starting_row, 6)]
                else []
              else []
            else []
          else []) ++
          (if rook_moved_of st color "queenside" = false then
            if strLower (cell board starting_row 0) = "r" ∧
                is_same_color piece (cell board starting_row 0) then
              if cell board starting_row 1 = "" ∧ cell board starting_row 2 = "" ∧
                  cell board starting_row 3 = "" then
                if is_square_attacked st board starting_row 2 opponent = false ∧
                    is_square_attacked st board starting_row 3 opponent = false then
                  [(starting_row, 2)]
                else []
              else []
            else []
          else [])
        else []
      else []
    else []
  basic ++ castles

/-- Source `get_possible_moves` with its `include_castling` parameter. -/
def get_possible_moves (st : Session) (board : Board) (row col : Int)
    (include_castling : Bool) : List (Int × Int) :=
  let piece := strLower (cell board row col)
  if piece = "p" then get_pawn_moves st board row col
  else if piece = "r" then get_rook_moves board row col
  else if piece = "n" then get_knight_moves board row col
  else if piece = "b" then get_bishop_moves board row col
  else if piece = "q" then get_queen_moves board row col
  else if piece = "k" then
    (if include_castling then get_king_moves st board row col
     else get_basic_king_moves board row col)
  else []

/-- Source `would_be_in_check`: simulates only the plain piece relocation on a
deep copy (no en passant pawn removal, no castling rook relocation) and asks
whether the mover is then in check. -/
def would_be_in_check (st : Session) (board : Board)
    (from_row from_col to_row to_col : Int) : Bool :=
  let moving_piece := cell board from_row from_col
  if moving_piece = "" then true
  else
    let player_color := if is_white_piece moving_piece then "white" else "black"
    let temp_board :=
      setCell (setCell board to_row to_col (cell board from_row from_col))
        from_row from_col ""
    is_in_check st temp_board player_color

/-- Source `get_legal_moves`: pseudo-moves with castling enabled, filtered by
`would_be_in_check`. -/
def get_legal_moves (st : Session) (board : Board) (row col : Int) :
    List (Int × Int) :=
  (get_possible_moves st board row col true).filter
    (fun m => ! would_be_in_check st board row col m.1 m.2)

/-- Source `has_legal_moves`. -/
def has_legal_moves (st : Session) (board : Board) (color : String) : Bool :=
  squaresList.any (fun rc =>
    let piece := cell board rc.1 rc.2
    if piece = "" then false
    else
      let piece_color := if is_white_piece piece then "white" else "black"
      if piece_color ≠ color then false
      else ! (get_legal_moves st board rc.1 rc.2).isEmpty)

/-- Source `is_checkmate`. -/
def is_checkmate (st : Session) (board : Board) (color : String) : Bool :=
  is_in_check st board color && ! has_legal_moves st board color

/-- Source `is_stalemate`. -/
def is_stalemate (st : Session) (board : Board) (color : String) : Bool :=
  ! is_in_check st board color && ! has_legal_moves st board color

/-- Source `get_game_status`. -/
def get_game_status (st : Session) (board : Board) (current_player : String) :
    String :=
  if is_checkmate st board current_player then
    "checkmate_" ++ (if current_player = "white" then "black" else "white") ++ "_wins"
  else if is_stalemate st board current_player then "stalemate"
  else if is_in_check st board current_player then "check_" ++ current_player
  else "active"

/-- The en passant test of `make_move`: a diagonal pawn move onto an empty
square whose `last_move` record shows a pawn double step onto the crossed
file, ending on the mover's rank. -/
def mm_is_en_passant (st : Session) (board : Board)
    (from_row from_col to_row to_col : Int) : Bool :=
  let piece_lower := strLower (cell board from_row from_col)
  let ep_record_ok : Bool :=
    match st.last_move with
    | none => false
    | some last_move =>
      decide (strLower last_move.piece = "p" ∧
        (last_move.to_row - last_move.from_row).natAbs = 2 ∧
        last_move.to_col = to_col ∧ last_move.to_row = from_row)
  decide (piece_lower = "p" ∧ (to_col - from_col).natAbs = 1 ∧
    cell board to_row to_col = "") && ep_record_ok

/-- The board computed by `make_move` on the deep copy: the moving piece
placed at the destination, the origin cleared, the en passant victim removed
and the castling rook relocated. -/
def make_move_board (st : Session) (board : Board)
    (from_row from_col to_row to_col : Int) : Board :=
  let new_board := board
  let piece := cell new_board from_row from_col
  let piece_lower := strLower piece
  let b1 := setCell new_board to_row to_col piece
  let b2 := setCell b1 from_row from_col ""
  let b3 := if mm_is_en_passant st board from_row from_col to_row to_col then
      setCell b2 from_row to_col ""
    else b2
  if piece_lower = "k" ∧ (to_col - from_col).natAbs = 2 then
    let rook_from_col : Int := if to_col = 6 then 7 else 0
    let rook_to_col : Int := if to_col = 6 then 5 else 3
    let rook := cell b3 from_row rook_from_col
    setCell (setCell b3 from_row rook_to_col rook) from_row rook_from_col ""
  else b3

/-- The session updates performed by `make_move`: the captured-piece ledger,
the castling flags, and the overwritten `last_move` record. -/
def make_move_session (st : Session) (board : Board)
    (from_row from_col to_row to_col : Int) : Session :=
  let piece := cell board from_row from_col
  let piece_lower := strLower piece
  let color := if is_white_piece piece then "white" else "black"
  let captured_piece := cell board to_row to_col
  let en_passant_captured_piece := cell board from_row to_col
  let st1 :=
    if captured_piece ≠ "" then push_captured st color captured_piece
    else if mm_is_en_passant st board from_row from_col to_row to_col = true ∧
        en_passant_captured_piece ≠ "" then
      push_captured st color en_passant_captured_piece
    else st
  let st2 := if piece_lower = "k" then set_king_moved st1 color true else st1
  let st3 :=
    if piece_lower = "r" then
      (if from_col = 0 then set_rook_moved st2 color "queenside" true
       else if from_col = 7 then set_rook_moved st2 color "kingside" true
       else st2)
    else st2
  { st3 with last_move := some ⟨piece, from_row, from_col, to_row, to_col⟩ }

/-- Source `make_move`: works on a deep copy of the board, removes the en
passant victim, relocates the castling rook, records captures, updates the
castling flags, and overwrites `last_move`. Returns the new board together
with the updated session (the source writes the session through the global
state; the two components are split here only to name them). -/
def make_move (st : Session) (board : Board)
    (from_row from_col to_row to_col : Int) : Board × Session :=
  (make_move_board st board from_row from_col to_row to_col,
   make_move_session st board from_row from_col to_row to_col)

/-- A sequence of `make_move` applications, threading board and session. -/
def apply_moves (st : Session) (board : Board) :
    List (Int × Int × Int × Int) → Board × Session
  | [] => (board, st)
  | m :: ms =>
    let r := make_move st board m.1 m.2.1 m.2.2.1 m.2.2.2
    apply_moves r.2 r.1 ms

/-- Pointwise ordering on the king-moved and rook-moved flags: every flag set
in `s` is still set in `t`. -/
def flagsLe (s t : Session) : Prop :=
  (s.king_moved_white = true → t.king_moved_white = true) ∧
  (s.king_moved_black = true → t.king_moved_black = true) ∧
  (s.rook_moved_white_kingside = true → t.rook_moved_white_kingside = true) ∧
  (s.rook_moved_white_queenside = true → t.rook_moved_white_queenside = true) ∧
  (s.rook_moved_black_kingside = true → t.rook_moved_black_kingside = true) ∧
  (s.rook_moved_black_queenside = true → t.rook_moved_black_queenside = true)

/-- Python `int(c)` on a single character, as an explicit result value. -/
def charToInt (c : Char) : Except String Int :=
  if c.isDigit then Except.ok ((c.toNat : Int) - 48)
  else Except.error ("invalid literal for int() with base 10: " ++ String.mk [c])

/-- Source `coordinate_to_position`: the raised `ValueError`s become explicit
`Except.error` values carrying the message strings. -/
def coordinate_to_position (coordinate : String) : Except String (Int × Int) :=
  match coordinate.data with
  | [f, r] =>
    match charToInt r with
    | Except.error e => Except.error e
    | Except.ok d =>
      let col : Int := ((Char.toLower f).toNat : Int) - 97
      let row : Int := 8 - d
      if 0 ≤ col ∧ col < 8 ∧ 0 ≤ row ∧ row < 8 then Except.ok (row, col)
      else Except.error "Invalid coordinate"
  | _ => Except.error "Coordinate must be 2 characters (e.g., \x27a1\x27)"

/-- Source `validate_coordinate`: returns `(is_valid, error_message)`. -/
def validate_coordinate (coordinate : String) : Bool × String :=
  if coordinate = "" then (true, "")
  else
    match coordinate.data with
    | [f, r] =>
      if ¬ (Char.toLower f).isAlpha then
        (false, "First character must be a letter (a-h)")
      else if ¬ r.isDigit then
        (false, "Second character must be a number (1-8)")
      else
        match coordinate_to_position coordinate with
        | Except.ok _ => (true, "")
        | Except.error e => (false, e)
    | _ => (false, "Coordinate must be 2 characters (e.g., \x27e2\x27)")

/-- Source `validate_coordinate_with_piece`: the session board and current
player are passed explicitly in place of the global session reads. -/
def validate_coordinate_with_piece (board : Board) (current_player : String)
    (coordinate : String) (check_piece : Bool) : Bool × String :=
  if coordinate = "" then (true, "")
  else
    let v := validate_coordinate coordinate
    if v.1 = false then v
    else if check_piece then
      match coordinate_to_position coordinate with
      | Except.error _ => (false, "Invalid board position")
      | Except.ok rc =>
        let piece := cell board rc.1 rc.2
        if piece = "" then (false, "No piece at " ++ coordinate)
        else if current_player = "white" ∧ ¬ is_white_piece piece then
          (false, "It\x27s white\x27s turn - " ++ coordinate ++ " has a black piece")
        else if current_player = "black" ∧ ¬ is_black_piece piece then
          (false, "It\x27s black\x27s turn - " ++ coordinate ++ " has a white piece")
        else (true, "")
    else (true, "")

/-- A heap of board objects, used to state the frame properties: Python lists
are mutable heap objects, so the copy-on-write discipline of the source is
made visible by giving each board an address and mapping every statement of
the source to a read or a write at an address. -/
abbrev Heap := List Board

/-- Allocation (`copy.deepcopy` result is a fresh object): returns the grown
heap and the address of the new board. -/
def halloc (h : Heap) (b : Board) : Heap × Nat := (h ++ [b], h.length)

/-- Read the board object at an address. -/
def hread (h : Heap) (p : Nat) : Board := h.getD p []

/-- Overwrite the board object at an address. -/
def hwrite (h : Heap) (p : Nat) (b : Board) : Heap := h.set p b

/-- Source `make_move` with the caller board given by address: statement for
statement the same as `make_move` above, except that `copy.deepcopy(board)`
allocates a fresh heap object and every subscript assignment of the source is
a write at that fresh address. Returns the heap, the address of the returned
board, and the updated session. -/
def make_move_ref (st : Session) (h : Heap) (p : Nat)
    (from_row from_col to_row to_col : Int) : Heap × Nat × Session :=
  let board := hread h p
  let alloc := halloc h board
  let h1 := alloc.1
  let q := alloc.2
  let piece := cell (hread h1 q) from_row from_col
  let piece_lower := strLower piece
  let is_white := is_white_piece piece
  let color := if is_white then "white" else "black"
  let captured_piece := cell (hread h1 q) to_row to_col
  let ep_record_ok : Bool :=
    match st.last_move with
    | none => false
    | some last_move =>
      decide (strLower last_move.piece = "p" ∧
        (last_move.to_row - last_move.from_row).natAbs = 2 ∧
        last_move.to_col = to_col ∧ last_move.to_row = from_row)
  let is_en_passant : Bool :=
    decide (piece_lower = "p" ∧ (to_col - from_col).natAbs = 1 ∧
      cell (hread h1 q) to_row to_col = "") && ep_record_ok
  let en_passant_captured_piece := cell (hread h1 q) from_row to_col
  let h2 := hwrite h1 q (setCell (hread h1 q) to_row to_col piece)
  let h3 := hwrite h2 q (setCell (hread h2 q) from_row from_col "")
  let h4 := if is_en_passant then
      hwrite h3 q (setCell (hread h3 q) from_row to_col "")
    else h3
  let h5 :=
    if piece_lower = "k" ∧ (to_col - from_col).natAbs = 2 then
      let rook_from_col : Int := if to_col = 6 then 7 else 0
      let rook_to_col : Int := if to_col = 6 then 5 else 3
      let rook := cell (hread h4 q) from_row rook_from_col
      let ha := hwrite h4 q (setCell (hread h4 q) from_row rook_to_col rook)
      hwrite ha q (setCell (hread ha q) from_row rook_from_col "")
    else h4
  let st1 :=
    if captured_piece ≠ "" then push_captured st color captured_piece
    else if is_en_passant = true ∧ en_passant_captured_piece ≠ "" then
      push_captured st color en_passant_captured_piece
    else st
  let st2 := if piece_lower = "k" then set_king_moved st1 color true else st1
  let st3 :=
    if piece_lower = "r" then
      (if from_col = 0 then set_rook_moved st2 color "queenside" true
       else if from_col = 7 then set_rook_moved st2 color "kingside" true
       else st2)
    else st2
  let st4 := { st3 with
    last_move := some ⟨piece, from_row, from_col, to_row, to_col⟩ }
  (h5, q, st4)

/-- Source `would_be_in_check` with the caller board given by address: the
early `return True`, the `copy.deepcopy` allocation and the two subscript
assignments on the copy. Returns the heap and the boolean result. -/
def would_be_in_check_ref (st : Session) (h : Heap) (p : Nat)
    (from_row from_col to_row to_col : Int) : Heap × Bool :=
  let board := hread h p
  let moving_piece := cell board from_row from_col
  if moving_piece = "" then (h, true)
  else
    let player_color := if is_white_piece moving_piece then "white" else "black"
    let alloc := halloc h board
    let h1 := alloc.1
    let t := alloc.2
    let h2 := hwrite h1 t
      (setCell (hread h1 t) to_row to_col (cell (hread h1 t) from_row from_col))
    let h3 := hwrite h2 t (setCell (hread h2 t) from_row from_col "")
    (h3, is_in_check st (hread h3 t) player_color)

/-- The filtering loop of `get_legal_moves`, threading the heap through the
successive `would_be_in_check` simulations. -/
def legal_filter_ref (st : Session) (p : Nat) (row col : Int) :
    Heap → List (Int × Int) → Heap × List (Int × Int)
  | h, [] => (h, [])
  | h, m :: ms =>
    let r1 := would_be_in_check_ref st h p row col m.1 m.2
    let r2 := legal_filter_ref st p row col r1.1 ms
    (r2.1, if r1.2 then r2.2 else m :: r2.2)

/-- Source `get_legal_moves` with the caller board given by address. -/
def get_legal_moves_ref (st : Session) (h : Heap) (p : Nat) (row col : Int) :
    Heap × List (Int × Int) :=
  legal_filter_ref st p row col h (get_possible_moves st (hread h p) row col true)

/-- Source `DEFAULT_BOARD`: the standard initial position. -/
def DEFAULT_BOARD : Board :=
  [["r", "n", "b", "q", "k", "b", "n", "r"],
   ["p", "p", "p", "p", "p", "p", "p", "p"],
   ["", "", "", "", "", "", "", ""],
   ["", "", "", "", "", "", "", ""],
   ["", "", "", "", "", "", "", ""],
   ["", "", "", "", "", "", "", ""],
   ["P", "P", "P", "P", "P", "P", "P", "P"],
   ["R", "N", "B", "Q", "K", "B", "N", "R"]]

/-- The thirteen strings a board square can hold (the keys of the source
`PIECE_SYMBOLS` table). -/
def pieceStrings : List String :=
  ["", "p", "n", "b", "r", "q", "k", "P", "N", "B", "R", "Q", "K"]

/-- A board every square of which holds one of the thirteen piece strings. -/
def ValidBoard (board : Board) : Bool :=
  board.all (fun row => row.all (fun s => s ∈ pieceStrings))

/-- The session produced by `initialize_game_state`: no last move, no flag
set, no capture recorded. -/
def initSession : Session :=
  ⟨none, false, false, false, false, false, false, [], []⟩

/-- An empty board. -/
def emptyBoard : Board :=
  [["", "", "", "", "", "", "", ""],
   ["", "", "", "", "", "", "", ""],
   ["", "", "", "", "", "", "", ""],
   ["", "", "", "", "", "", "", ""],
   ["", "", "", "", "", "", "", ""],
   ["", "", "", "", "", "", "", ""],
   ["", "", "", "", "", "", "", ""],
   ["", "", "", "", "", "", "", ""]]

/-- Position for the en passant legality bug: black has just played the pawn
double step d7 to d5 (row 1 to row 3), white has a pawn on e5 (row 3, col 4),
a black rook stands on a5 (row 3, col 0) and the white king on h5 (row 3,
col 7); the black king is on e8. -/
def epBugBoard : Board :=
  [["", "", "", "", "k", "", "", ""],
   ["", "", "", "", "", "", "", ""],
   ["", "", "", "", "", "", "", ""],
   ["r", "", "", "p", "P", "", "", "K"],
   ["", "", "", "", "", "", "", ""],
   ["", "", "", "", "", "", "", ""],
   ["", "", "", "", "", "", "", ""],
   ["", "", "", "", "", "", "", ""]]

/-- Session after the black double step d7 to d5. -/
def epBugSession : Session :=
  { initSession with last_move := some ⟨"p", 1, 3, 3, 3⟩ }

/-- Position for the missing-rook castling counterexample: a lone white king
on e1, both castling flags still false, kingside corner and intervening
squares empty and unattacked. -/
def loneKingBoard : Board :=
  [["", "", "", "", "", "", "", ""],
   ["", "", "", "", "", "", "", ""],
   ["", "", "", "", "", "", "", ""],
   ["", "", "", "", "", "", "", ""],
   ["", "", "", "", "", "", "", ""],
   ["", "", "", "", "", "", "", ""],
   ["", "", "", "", "", "", "", ""],
   ["", "", "", "", "K", "", "", ""]]

/-- Position for the en passant color counterexample: white pawns on d5 and
e5 and a last-move record claiming the white d-pawn just advanced two squares
to d5 (row 3). -/
def epColorBoard : Board :=
  [["", "", "", "", "", "", "", ""],
   ["", "", "", "", "", "", "", ""],
   ["", "", "", "", "", "", "", ""],
   ["", "", "", "P", "P", "", "", ""],
   ["", "", "", "", "", "", "", ""],
   ["", "", "", "", "", "", "", ""],
   ["", "", "", "", "", "", "", ""],
   ["", "", "", "", "", "", "", ""]]

/-- Session whose last-move record shows a white pawn double step onto d5. -/
def epColorSession : Session :=
  { initSession with last_move := some ⟨"P", 5, 3, 3, 3⟩ }

/-- Board with white king on e1, white rooks on a1 and h1, black king on e8:
both white castling moves are available. -/
def castleOkBoard : Board :=
  [["", "", "", "", "k", "", "", ""],
   ["", "", "", "", "", "", "", ""],
   ["", "", "", "", "", "", "", ""],
   ["", "", "", "", "", "", "", ""],
   ["", "", "", "", "", "", "", ""],
   ["", "", "", "", "", "", "", ""],
   ["", "", "", "", "", "", "", ""],
   ["R", "", "", "", "K", "", "", "R"]]

theorem get_possible_moves_false (st : Session) (board : Board) (row col : Int) :
    get_possible_moves st board row col false =
      get_possible_moves_no_castle st board row col := by
  simp only [get_possible_moves, get_possible_moves_no_castle, if_false, Bool.false_eq_true]

theorem flagsLe_refl (s : Session) : flagsLe s s :=
  ⟨id, id, id, id, id, id⟩

theorem flagsLe_trans {a b c : Session} (h1 : flagsLe a b) (h2 : flagsLe b c) :
    flagsLe a c :=
  ⟨fun h => h2.1 (h1.1 h), fun h => h2.2.1 (h1.2.1 h),
   fun h => h2.2.2.1 (h1.2.2.1 h), fun h => h2.2.2.2.1 (h1.2.2.2.1 h),
   fun h => h2.2.2.2.2.1 (h1.2.2.2.2.1 h),
   fun h => h2.2.2.2.2.2 (h1.2.2.2.2.2 h)⟩

theorem flagsLe_push (st : Session) (c p : String) :
    flagsLe st (push_captured st c p) := by
  unfold push_captured flagsLe
  split_ifs <;> simp

theorem flagsLe_set_king (st : Session) (c : String) :
    flagsLe st (set_king_moved st c true) := by
  unfold set_king_moved flagsLe
  split_ifs <;> simp

theorem flagsLe_set_rook (st : Session) (c s' : String) :
    flagsLe st (set_rook_moved st c s' true) := by
  unfold set_rook_moved flagsLe
  split_ifs <;> simp

theorem flagsLe_ite {st : Session} (c : Prop) [Decidable c] {a b : Session}
    (ha : flagsLe st a) (hb : flagsLe st b) : flagsLe st (if c then a else b) := by
  split_ifs <;> assumption

theorem flagsLe_update_last {s t : Session} (v : Option LastMove)
    (h : flagsLe s t) : flagsLe s { t with last_move := v } :=
  h

theorem make_move_flagsLe (st : Session) (b : Board) (fr fc tr tc : Int) :
    flagsLe st (make_move st b fr fc tr tc).2 := by
  show flagsLe st (make_move_session st b fr fc tr tc)
  simp only [make_move_session]
  refine flagsLe_update_last _ ?_
  repeat
    first
    | exact flagsLe_refl st
    | exact flagsLe_push st _ _
    | refine flagsLe_trans ?_ (flagsLe_set_king _ _)
    | refine flagsLe_trans ?_ (flagsLe_set_rook _ _ _)
    | apply flagsLe_ite

theorem mem_offset_moves {board : Board} {row col : Int} {offs : List (Int × Int)}
    {r c : Int} (h : (r, c) ∈ offset_moves board row col offs) :
    ∃ d ∈ offs, r = row + d.1 ∧ c = col + d.2 ∧
      0 ≤ r ∧ r < 8 ∧ 0 ≤ c ∧ c < 8 := by
  simp only [offset_moves, List.mem_filterMap] at h
  obtain ⟨d, hd, hf⟩ := h
  split_ifs at hf <;> simp at hf
  refine ⟨d, hd, ?_, ?_, ?_, ?_, ?_, ?_⟩ <;> omega

theorem ray_steps_range {board : Board} {piece : String} {dr dc : Int} :
    ∀ (fuel : Nat) (r0 c0 r c : Int),
      (r, c) ∈ ray_steps board piece dr dc r0 c0 fuel →
      0 ≤ r ∧ r < 8 ∧ 0 ≤ c ∧ c < 8 := by
  intro fuel
  induction fuel with
  | zero => intro r0 c0 r c h; simp [ray_steps] at h
  | succ n ih =>
    intro r0 c0 r c h
    simp only [ray_steps] at h
    split_ifs at h
    all_goals
      first
      | exact absurd h (List.not_mem_nil _)
      | (rw [List.mem_singleton] at h
         simp only [Prod.mk.injEq] at h
         omega)
      | (rcases List.mem_cons.mp h with h4 | h4 <;>
          first
          | (simp only [Prod.mk.injEq] at h4; omega)
          | exact ih _ _ _ _ h4)

theorem get_rook_moves_range {board : Board} {row col r c : Int}
    (h : (r, c) ∈ get_rook_moves board row col) :
    0 ≤ r ∧ r < 8 ∧ 0 ≤ c ∧ c < 8 := by
  simp only [get_rook_moves, List.mem_flatMap] at h
  obtain ⟨d, _, h⟩ := h
  exact ray_steps_range _ _ _ _ _ h

theorem get_bishop_moves_range {board : Board} {row col r c : Int}
    (h : (r, c) ∈ get_bishop_moves board row col) :
    0 ≤ r ∧ r < 8 ∧ 0 ≤ c ∧ c < 8 := by
  simp only [get_bishop_moves, List.mem_flatMap] at h
  obtain ⟨d, _, h⟩ := h
  exact ray_steps_range _ _ _ _ _ h

theorem get_pawn_moves_range {st : Session} {board : Board} {row col r c : Int}
    (hlm : ∀ lm, st.last_move = some lm → 0 ≤ lm.to_col ∧ lm.to_col < 8)
    (hcol : 0 ≤ col ∧ col < 8)
    (h : (r, c) ∈ get_pawn_moves st board row col) :
    0 ≤ r ∧ r < 8 ∧ 0 ≤ c ∧ c < 8 := by
  cases hw : is_white_piece (cell board row col) <;>
    simp only [get_pawn_moves, hw, Bool.false_eq_true, eq_self_iff_true,
      if_true, if_false, List.mem_append] at h <;>
    (rcases h with (h | h) | h
     · split_ifs at h <;>
         simp only [List.mem_cons, List.mem_singleton, List.not_mem_nil,
           or_false, Prod.mk.injEq] at h <;>
         omega
     · simp only [List.mem_filterMap] at h
       obtain ⟨d, _, hf⟩ := h
       split_ifs at hf <;> simp at hf <;> omega
     · cases hl : st.last_move with
       | none => simp only [hl] at h; simp at h
       | some lm =>
         simp only [hl] at h
         have hc := hlm lm hl
         split_ifs at h <;>
           simp only [List.mem_singleton, List.not_mem_nil, Prod.mk.injEq] at h <;>
           omega)

theorem get_king_moves_range {st : Session} {board : Board} {row col r c : Int}
    (h : (r, c) ∈ get_king_moves st board row col) :
    0 ≤ r ∧ r < 8 ∧ 0 ≤ c ∧ c < 8 := by
  cases hw : is_white_piece (cell board row col) <;>
    simp only [get_king_moves, hw, Bool.false_eq_true, eq_self_iff_true,
      if_true, if_false, List.mem_append] at h <;>
    (rcases h with h | h
     · obtain ⟨d, _, _, _, hb⟩ := mem_offset_moves h
       exact hb
     · split_ifs at h <;>
         first
         | exact absurd h (List.not_mem_nil _)
         | (simp only [List.mem_append, List.mem_singleton, List.not_mem_nil,
              or_false, false_or, Prod.mk.injEq] at h
            omega))

/-- C9: every destination produced by `get_possible_moves` lies on the 8x8
grid, for every piece kind and either value of `include_castling`; the
last-move record is assumed to carry an on-board file, as the Square data
model prescribes. -/
theorem C9_moves_in_range (st : Session) (board : Board) (row col : Int)
    (include_castling : Bool) (r c : Int)
    (_hrow : 0 ≤ row ∧ row < 8) (hcol : 0 ≤ col ∧ col < 8)
    (hlm : ∀ lm, st.last_move = some lm → 0 ≤ lm.to_col ∧ lm.to_col < 8)
    (h : (r, c) ∈ get_possible_moves st board row col include_castling) :
    0 ≤ r ∧ r < 8 ∧ 0 ≤ c ∧ c < 8 := by
  simp only [get_possible_moves] at h
  split_ifs at h
  · exact get_pawn_moves_range hlm hcol h
  · exact get_rook_moves_range h
  · obtain ⟨d, _, _, _, hb⟩ := mem_offset_moves h
    exact hb
  · exact get_bishop_moves_range h
  · rcases List.mem_append.mp h with h4 | h4
    · exact get_rook_moves_range h4
    · exact get_bishop_moves_range h4
  · exact get_king_moves_range h
  · obtain ⟨d, _, _, _, hb⟩ := mem_offset_moves h
    exact hb
  · simp at h

theorem C9_moves_in_range_witness :
    ((5 : Int), (0 : Int)) ∈ get_possible_moves initSession DEFAULT_BOARD 6 0 true ∧
    (0 ≤ (5 : Int) ∧ (5 : Int) < 8 ∧ 0 ≤ (0 : Int) ∧ (0 : Int) < 8) :=
  ⟨by decide,
   C9_moves_in_range initSession DEFAULT_BOARD 6 0 true 5 0 (by decide) (by decide)
     (fun lm hlm => by simp [initSession] at hlm) (by decide)⟩

theorem ValidBoard_cell {board : Board} (hv : ValidBoard board = true) (r c : Int) :
    cell board r c ∈ pieceStrings := by
  unfold ValidBoard at hv
  rw [List.all_eq_true] at hv
  unfold cell
  rcases hrow : board[r.toNat]? with _ | row
  · simp [List.getD_eq_getElem?_getD, hrow]
    decide
  · have hmem := hv row (List.getElem?_mem hrow)
    rw [List.all_eq_true] at hmem
    rcases hcell : row[c.toNat]? with _ | s
    · simp [List.getD_eq_getElem?_getD, hrow, hcell]
      decide
    · have hs := hmem s (List.getElem?_mem hcell)
      simp only [List.getD_eq_getElem?_getD, hrow, hcell, Option.getD_some]
      simpa using hs

theorem pawn_string {s : String} (hs : s ∈ pieceStrings) :
    strLower s = "p" ↔ (s = "p" ∨ s = "P") := by
  simp only [pieceStrings, List.mem_cons, List.not_mem_nil, or_false] at hs
  rcases hs with h|h|h|h|h|h|h|h|h|h|h|h|h <;> subst h <;> decide

theorem rook_string_white {s : String} (hs : s ∈ pieceStrings) :
    (strLower s = "r" ∧ is_same_color "K" s = true) ↔ s = "R" := by
  simp only [pieceStrings, List.mem_cons, List.not_mem_nil, or_false] at hs
  rcases hs with h|h|h|h|h|h|h|h|h|h|h|h|h <;> subst h <;> decide

theorem rook_string_black {s : String} (hs : s ∈ pieceStrings) :
    (strLower s = "r" ∧ is_same_color "k" s = true) ↔ s = "r" := by
  simp only [pieceStrings, List.mem_cons, List.not_mem_nil, or_false] at hs
  rcases hs with h|h|h|h|h|h|h|h|h|h|h|h|h <;> subst h <;> decide

theorem mem_ite_nil {α : Type} {c : Prop} [Decidable c] {l : List α} {a : α} :
    (a ∈ (if c then l else [])) ↔ c ∧ a ∈ l := by
  split_ifs with h <;> simp [h]

theorem not_mem_basic_king {board : Board} {sr cc : Int}
    (hcc : cc = 6 ∨ cc = 2) : ¬ ((sr, cc) ∈ get_basic_king_moves board sr 4) := by
  intro h
  obtain ⟨d, hd, e1, e2, _⟩ := mem_offset_moves h
  fin_cases hd <;> omega

theorem mm_last_move_overwrite (st : Session) (board : Board) (fr fc tr tc : Int) :
    (make_move st board fr fc tr tc).2.last_move =
      some ⟨cell board fr fc, fr, fc, tr, tc⟩ := rfl

theorem ep_iff_empty_dest (st : Session) (board : Board) (w : Bool) (row col r c : Int)
    (hp : cell board row col = (if w then "P" else "p"))
    (hvl : ∀ lm, st.last_move = some lm → lm.piece ∈ pieceStrings)
    (hempty : cell board r c = "") (hcc : c ≠ col) :
    ((r, c) ∈ get_pawn_moves st board row col ↔
      ∃ lm, st.last_move = some lm ∧ (lm.piece = "p" ∨ lm.piece = "P") ∧
        (lm.to_row - lm.from_row).natAbs = 2 ∧
        row = (if w then (3 : Int) else 4) ∧
        lm.to_row = row ∧ (lm.to_col - col).natAbs = 1 ∧
        r = lm.to_row + (if w then (-1 : Int) else 1) ∧ c = lm.to_col) := by
  have hwP : is_white_piece "P" = true := by decide
  have hwq : is_white_piece "p" = false := by decide
  cases w <;>
    simp only [Bool.false_eq_true, eq_self_iff_true, if_true, if_false] at hp ⊢ <;>
    (constructor
     · intro h
       simp only [get_pawn_moves, hp, hwP, hwq, eq_self_iff_true, if_true,
         Bool.false_eq_true, if_false, List.mem_append] at h
       rcases h with (h | h) | h
       · exfalso
         split_ifs at h <;>
           simp only [List.mem_cons, List.mem_singleton, List.not_mem_nil,
             or_false, Prod.mk.injEq] at h <;>
           omega
       · exfalso
         simp only [List.mem_filterMap] at h
         obtain ⟨d, hd, hf⟩ := h
         split_ifs at hf with hg1 hg2
         all_goals first
           | (simp at hf; done)
           | (simp only [Option.some.injEq, Prod.mk.injEq] at hf
              obtain ⟨e1, e2⟩ := hf
              subst e1; subst e2
              exact hg2.1 hempty)
       · cases hl : st.last_move with
         | none => simp only [hl] at h; simp at h
         | some lm =>
           simp only [hl] at h
           split_ifs at h with h1 h2 h3 h4
           all_goals first
             | exact absurd h (List.not_mem_nil _)
             | (rw [List.mem_singleton] at h
                simp only [Prod.mk.injEq] at h
                exact ⟨lm, rfl, (pawn_string (hvl lm hl)).mp h1.1, h1.2, h2,
                  h3.1, h3.2, h.1, h.2⟩)
     · intro hex
       obtain ⟨lm, hl, hpiece, h2adv, hrank, hsame, hadj, hr, hc2⟩ := hex
       have hC1 : strLower lm.piece = "p" := (pawn_string (hvl lm hl)).mpr hpiece
       simp only [get_pawn_moves, hp, hwP, hwq, eq_self_iff_true, if_true,
         Bool.false_eq_true, if_false, List.mem_append, hl]
       refine Or.inr ?_
       split_ifs with hx1 hx2 hx3 hx4
       all_goals first
         | (subst hr; subst hc2; exact List.mem_singleton.mpr rfl)
         | (exfalso; omega)
         | exact absurd ⟨hC1, h2adv⟩ hx1)

/-- C1: applying the en passant capture that `get_legal_moves` reports as
legal on `epBugBoard` leaves the white king in check, because
`would_be_in_check` simulates the move without removing the captured pawn
while `make_move` does remove it. -/
theorem C1_bug :
    ((2 : Int), (3 : Int)) ∈ get_legal_moves epBugSession epBugBoard 3 4 ∧
    is_in_check epBugSession (make_move epBugSession epBugBoard 3 4 2 3).1
      "white" = true := by
  decide

/-- C2: for every board and side to move, `get_game_status` returns exactly
the value of the decision table over `is_in_check` and `has_legal_moves`:
check of the side to move, checkmate with the opponent as winner, active, or
stalemate. -/
theorem C2_status_table (st : Session) (b : Board) (p : String)
    (_hp : p = "white" ∨ p = "black") :
    get_game_status st b p =
      if is_in_check st b p then
        (if has_legal_moves st b p then "check_" ++ p
         else "checkmate_" ++ (if p = "white" then "black" else "white") ++ "_wins")
      else
        (if has_legal_moves st b p then "active" else "stalemate") := by
  cases h1 : is_in_check st b p <;> cases h2 : has_legal_moves st b p <;>
    simp [get_game_status, is_checkmate, is_stalemate, h1, h2]

theorem C2_status_table_witness :
    ("white" = "white" ∨ "white" = "black") ∧
    get_game_status initSession DEFAULT_BOARD "white" =
      (if is_in_check initSession DEFAULT_BOARD "white" then
        (if has_legal_moves initSession DEFAULT_BOARD "white" then "check_" ++ "white"
         else "checkmate_" ++ (if "white" = "white" then "black" else "white") ++ "_wins")
      else
        (if has_legal_moves initSession DEFAULT_BOARD "white" then "active"
         else "stalemate")) :=
  ⟨Or.inl rfl, C2_status_table initSession DEFAULT_BOARD "white" (Or.inl rfl)⟩

/-- C6: across every sequence of `make_move` applications the per-side
king-moved flag and the four rook-moved flags only transition from false to
true and are never reset. -/
theorem C6_flags_monotone (ms : List (Int × Int × Int × Int)) (st : Session)
    (b : Board) :
    (st.king_moved_white = true →
      (apply_moves st b ms).2.king_moved_white = true) ∧
    (st.king_moved_black = true →
      (apply_moves st b ms).2.king_moved_black = true) ∧
    (st.rook_moved_white_kingside = true →
      (apply_moves st b ms).2.rook_moved_white_kingside = true) ∧
    (st.rook_moved_white_queenside = true →
      (apply_moves st b ms).2.rook_moved_white_queenside = true) ∧
    (st.rook_moved_black_kingside = true →
      (apply_moves st b ms).2.rook_moved_black_kingside = true) ∧
    (st.rook_moved_black_queenside = true →
      (apply_moves st b ms).2.rook_moved_black_queenside = true) := by
  induction ms generalizing st b with
  | nil => exact ⟨id, id, id, id, id, id⟩
  | cons m ms ih =>
    have hstep : flagsLe st (make_move st b m.1 m.2.1 m.2.2.1 m.2.2.2).2 :=
      make_move_flagsLe st b m.1 m.2.1 m.2.2.1 m.2.2.2
    have hrest := ih (make_move st b m.1 m.2.1 m.2.2.1 m.2.2.2).2
      (make_move st b m.1 m.2.1 m.2.2.1 m.2.2.2).1
    refine ⟨?_, ?_, ?_, ?_, ?_, ?_⟩ <;>
      intro h <;>
      simp only [apply_moves]
    · exact hrest.1 (hstep.1 h)
    · exact hrest.2.1 (hstep.2.1 h)
    · exact hrest.2.2.1 (hstep.2.2.1 h)
    · exact hrest.2.2.2.1 (hstep.2.2.2.1 h)
    · exact hrest.2.2.2.2.1 (hstep.2.2.2.2.1 h)
    · exact hrest.2.2.2.2.2 (hstep.2.2.2.2.2 h)

theorem C6_flags_monotone_witness :
    let allSet : Session := ⟨none, true, true, true, true, true, true, [], []⟩
    allSet.king_moved_white = true ∧
    (apply_moves allSet DEFAULT_BOARD [(6, 4, 4, 4)]).2.king_moved_white = true :=
  ⟨rfl, (C6_flags_monotone [(6, 4, 4, 4)]
    ⟨none, true, true, true, true, true, true, [], []⟩ DEFAULT_BOARD).1 rfl⟩

/-- C7 counterexample: on a board without a white king, `is_in_check` does
not fail; it returns the ordinary boolean `false`. -/
theorem C7_cex :
    get_king_position emptyBoard "white" = none ∧
    is_in_check initSession emptyBoard "white" = false := by
  decide

/-- C7 amended: when the given side has no king, `is_in_check` returns
`false` (a kingless side is treated as not in check); no error value exists. -/
theorem C7_no_king_amended (st : Session) (b : Board) (color : String)
    (h : get_king_position b color = none) :
    is_in_check st b color = false := by
  simp [is_in_check, h]

theorem C7_no_king_amended_witness :
    get_king_position emptyBoard "black" = none ∧
    is_in_check initSession emptyBoard "black" = false :=
  ⟨by decide, C7_no_king_amended initSession emptyBoard "black" (by decide)⟩

/-- C4 counterexample: a lone white king on e1 with all castling flags false
satisfies conditions (a) through (d) of the claim for the kingside, yet no
castling move is generated, because the code additionally requires a white
rook on h1. -/
theorem C4_cex :
    king_moved_of initSession "white" = false ∧
    rook_moved_of initSession "white" "kingside" = false ∧
    cell loneKingBoard 7 5 = "" ∧ cell loneKingBoard 7 6 = "" ∧
    is_square_attacked initSession loneKingBoard 7 4 "black" = false ∧
    is_square_attacked initSession loneKingBoard 7 5 "black" = false ∧
    is_square_attacked initSession loneKingBoard 7 6 "black" = false ∧
    ¬ (((7 : Int), (6 : Int)) ∈ get_king_moves initSession loneKingBoard 7 4) := by
  decide

set_option maxHeartbeats 1600000 in
/-- C4 amended: for a side whose king stands on its home square (found there
by `get_king_position`), the castling destination (home rank, file 6 or 2) is
generated exactly when the king-moved flag is unset, the rook-moved flag of
that wing is unset, that side rook stands on the corner square of the wing,
the squares strictly between king and rook are empty, and the king current
square, transit square and destination are not attacked by the opponent. -/
theorem C4_castling_amended (st : Session) (board : Board) (w : Bool)
    (hv : ValidBoard board = true)
    (hk : cell board (if w then (7 : Int) else 0) 4 = (if w then "K" else "k"))
    (hkp : get_king_position board (if w then "white" else "black") =
      some ((if w then (7 : Int) else 0), 4)) :
    ((((if w then (7 : Int) else 0), (6 : Int)) ∈
        get_king_moves st board (if w then (7 : Int) else 0) 4 ↔
      (king_moved_of st (if w then "white" else "black") = false ∧
       rook_moved_of st (if w then "white" else "black") "kingside" = false ∧
       cell board (if w then (7 : Int) else 0) 7 = (if w then "R" else "r") ∧
       cell board (if w then (7 : Int) else 0) 5 = "" ∧
       cell board (if w then (7 : Int) else 0) 6 = "" ∧
       is_square_attacked st board (if w then (7 : Int) else 0) 4
         (if w then "black" else "white") = false ∧
       is_square_attacked st board (if w then (7 : Int) else 0) 5
         (if w then "black" else "white") = false ∧
       is_square_attacked st board (if w then (7 : Int) else 0) 6
         (if w then "black" else "white") = false)) ∧
     (((if w then (7 : Int) else 0), (2 : Int)) ∈
        get_king_moves st board (if w then (7 : Int) else 0) 4 ↔
      (king_moved_of st (if w then "white" else "black") = false ∧
       rook_moved_of st (if w then "white" else "black") "queenside" = false ∧
       cell board (if w then (7 : Int) else 0) 0 = (if w then "R" else "r") ∧
       cell board (if w then (7 : Int) else 0) 1 = "" ∧
       cell board (if w then (7 : Int) else 0) 2 = "" ∧
       cell board (if w then (7 : Int) else 0) 3 = "" ∧
       is_square_attacked st board (if w then (7 : Int) else 0) 4
         (if w then "black" else "white") = false ∧
       is_square_attacked st board (if w then (7 : Int) else 0) 2
         (if w then "black" else "white") = false ∧
       is_square_attacked st board (if w then (7 : Int) else 0) 3
         (if w then "black" else "white") = false))) := by
  cases w <;>
    simp only [Bool.false_eq_true, eq_self_iff_true, if_true, if_false] at hk hkp ⊢
  · have hwk2 : is_white_piece "k" = false := by decide
    have hrs7 := rook_string_black (ValidBoard_cell hv 0 7)
    have hrs0 := rook_string_black (ValidBoard_cell hv 0 0)
    constructor
    · simp [get_king_moves, hk, hwk2, is_in_check, hkp, mem_ite_nil,
        not_mem_basic_king (Or.inl rfl), hrs7, hrs0]
      tauto
    · simp [get_king_moves, hk, hwk2, is_in_check, hkp, mem_ite_nil,
        not_mem_basic_king (Or.inr rfl), hrs7, hrs0]
      tauto
  · have hwK : is_white_piece "K" = true := by decide
    have hrs7 := rook_string_white (ValidBoard_cell hv 7 7)
    have hrs0 := rook_string_white (ValidBoard_cell hv 7 0)
    constructor
    · simp [get_king_moves, hk, hwK, is_in_check, hkp, mem_ite_nil,
        not_mem_basic_king (Or.inl rfl), hrs7, hrs0]
      tauto
    · simp [get_king_moves, hk, hwK, is_in_check, hkp, mem_ite_nil,
        not_mem_basic_king (Or.inr rfl), hrs7, hrs0]
      tauto

set_option maxHeartbeats 1600000 in
theorem C4_castling_amended_witness :
    ValidBoard castleOkBoard = true ∧
    (((7 : Int), (6 : Int)) ∈ get_king_moves initSession castleOkBoard 7 4) ∧
    (((7 : Int), (2 : Int)) ∈ get_king_moves initSession castleOkBoard 7 4) :=
  ⟨by decide,
   (C4_castling_amended initSession castleOkBoard true (by decide) (by decide)
      (by decide)).1.mpr (by decide),
   (C4_castling_amended initSession castleOkBoard true (by decide) (by decide)
      (by decide)).2.mpr (by decide)⟩

/-- C5 counterexample: the last-move record shows a pawn of the same color as
the mover (a white pawn double step, mover also white), not an enemy pawn,
yet the en passant destination (2, 3) is still generated for the white pawn
on (3, 4). -/
theorem C5_cex :
    epColorSession.last_move = some ⟨"P", 5, 3, 3, 3⟩ ∧
    is_same_color "P" (cell epColorBoard 3 4) = true ∧
    cell epColorBoard 2 3 = "" ∧
    (((2 : Int), (3 : Int)) ∈ get_pawn_moves epColorSession epColorBoard 3 4) := by
  decide

/-- C5 amended: an empty destination square off the mover's file is in a
pawn's generated moves exactly when the last-move record shows a pawn of
either color that just advanced two ranks, landing adjacent to the mover on
the same rank, with the mover standing on its en passant rank (row 3 for
white, row 4 for black), the destination being the square behind that pawn in
the mover's direction of travel; and `make_move` overwrites the last-move
record with the applied move on every application, so eligibility read from
an older record never survives a ply. -/
theorem C5_en_passant_amended :
    (∀ (st : Session) (board : Board) (w : Bool) (row col r c : Int),
      cell board row col = (if w then "P" else "p") →
      (∀ lm, st.last_move = some lm → lm.piece ∈ pieceStrings) →
      cell board r c = "" → c ≠ col →
      ((r, c) ∈ get_pawn_moves st board row col ↔
        ∃ lm, st.last_move = some lm ∧ (lm.piece = "p" ∨ lm.piece = "P") ∧
          (lm.to_row - lm.from_row).natAbs = 2 ∧
          row = (if w then (3 : Int) else 4) ∧
          lm.to_row = row ∧ (lm.to_col - col).natAbs = 1 ∧
          r = lm.to_row + (if w then (-1 : Int) else 1) ∧ c = lm.to_col)) ∧
    (∀ (st : Session) (board : Board) (fr fc tr tc : Int),
      (make_move st board fr fc tr tc).2.last_move =
        some ⟨cell board fr fc, fr, fc, tr, tc⟩) :=
  ⟨fun st board w row col r c hp hvl he hcc =>
    ep_iff_empty_dest st board w row col r c hp hvl he hcc,
   fun st board fr fc tr tc => mm_last_move_overwrite st board fr fc tr tc⟩

theorem C5_en_passant_amended_witness :
    (((2 : Int), (3 : Int)) ∈ get_pawn_moves epBugSession epBugBoard 3 4) ∧
    (make_move epBugSession epBugBoard 3 4 2 3).2.last_move =
      some ⟨"P", 3, 4, 2, 3⟩ :=
  ⟨(C5_en_passant_amended.1 epBugSession epBugBoard true 3 4 2 3 (by decide)
      (fun lm hl => by rw [← Option.some.inj hl]; decide)
      (by decide) (by decide)).mpr
    ⟨⟨"p", 1, 3, 3, 3⟩, rfl, Or.inl rfl, by decide, by decide, by decide,
      by decide, by decide, by decide⟩,
   C5_en_passant_amended.2 epBugSession epBugBoard 3 4 2 3⟩

/-- C8 counterexample: the empty string has the wrong length (0, not 2), yet
`validate_coordinate` reports it valid with an empty message instead of
failing. -/
theorem C8_cex :
    ("" : String).data.length ≠ 2 ∧ validate_coordinate "" = (true, "") := by
  decide

/-- C8 amended: every NONEMPTY malformed string (wrong length, file character
whose lowercasing is not a letter, non-digit rank character, or out of range
after decoding) is rejected by `validate_coordinate` with a nonempty
human-readable reason; only the empty string is special-cased as valid. -/
theorem C8_malformed_amended (s : String) (hne : s ≠ "")
    (hmal : s.data.length ≠ 2 ∨
      (∃ f r, s.data = [f, r] ∧
        (¬ (Char.toLower f).isAlpha = true ∨
         ¬ r.isDigit = true ∨
         ((Char.toLower f).isAlpha = true ∧ r.isDigit = true ∧
          ¬ (0 ≤ ((Char.toLower f).toNat : Int) - 97 ∧
             ((Char.toLower f).toNat : Int) - 97 < 8 ∧
             0 ≤ (8 : Int) - ((r.toNat : Int) - 48) ∧
             (8 : Int) - ((r.toNat : Int) - 48) < 8))))) :
    (validate_coordinate s).1 = false ∧ (validate_coordinate s).2 ≠ "" := by
  obtain ⟨cs⟩ := s
  rcases cs with _ | ⟨a, _ | ⟨b, _ | ⟨x, rest⟩⟩⟩
  · exact absurd rfl hne
  · have hne1 : String.mk [a] ≠ "" :=
      fun h => List.noConfusion (congrArg String.data h)
    constructor <;> simp [validate_coordinate, hne1]
  · rcases hmal with hlen | ⟨f, r, hfr, hsub⟩
    · exact absurd rfl hlen
    · obtain ⟨hf, hr2⟩ : f = a ∧ r = b := by
        have h2 := hfr.symm
        simp only [List.cons.injEq, and_true] at h2
        exact h2
      rw [hf, hr2] at hsub
      have hne2 : String.mk [a, b] ≠ "" :=
        fun h => List.noConfusion (congrArg String.data h)
      rcases hsub with h1 | h2 | ⟨ha, hd, hrange⟩
      · constructor <;> simp [validate_coordinate, hne2, h1]
      · by_cases hA : (Char.toLower a).isAlpha = true
        · constructor <;> simp [validate_coordinate, hne2, hA, h2]
        · constructor <;> simp [validate_coordinate, hne2, hA]
      · constructor <;>
          (simp [validate_coordinate, coordinate_to_position, charToInt,
             hne2, ha, hd]
           split_ifs with hR
           · exfalso
             exact hrange (by refine ⟨?_, ?_, ?_, ?_⟩ <;> omega)
           · simp)
  · have hneL : String.mk (a :: b :: x :: rest) ≠ "" :=
      fun h => List.noConfusion (congrArg String.data h)
    constructor <;> simp [validate_coordinate, hneL]

theorem C8_malformed_amended_witness :
    ("a0" : String) ≠ "" ∧
    (validate_coordinate "a0").1 = false ∧ (validate_coordinate "a0").2 ≠ "" :=
  ⟨by decide,
   C8_malformed_amended "a0" (by decide)
     (Or.inr ⟨'a', '0', by decide,
       Or.inr (Or.inr ⟨by decide, by decide, by decide⟩)⟩)⟩

theorem set_append_len (h : Heap) (xb b : Board) :
    (h ++ [xb]).set h.length b = h ++ [b] := by
  induction h with
  | nil => rfl
  | cons y t ih => simp [List.set, ih]

theorem read_append (h : Heap) (b : Board) (p : Nat) (hp : p < h.length) :
    hread (h ++ [b]) p = hread h p := by
  unfold hread
  simp [List.getD_eq_getElem?_getD, List.getElem?_append_left hp]

theorem make_move_ref_frame (st : Session) (h : Heap) (p : Nat)
    (fr fc tr tc : Int) (hp : p < h.length) :
    hread (make_move_ref st h p fr fc tr tc).1 p = hread h p ∧
    h.length ≤ (make_move_ref st h p fr fc tr tc).1.length := by
  unfold make_move_ref halloc hwrite
  simp only [set_append_len]
  constructor
  · split_ifs <;> simp [read_append _ _ _ hp]
  · split_ifs <;> simp

theorem would_be_in_check_ref_frame (st : Session) (h : Heap) (p : Nat)
    (fr fc tr tc : Int) (hp : p < h.length) :
    hread (would_be_in_check_ref st h p fr fc tr tc).1 p = hread h p ∧
    h.length ≤ (would_be_in_check_ref st h p fr fc tr tc).1.length := by
  unfold would_be_in_check_ref halloc hwrite
  simp only [set_append_len]
  split_ifs <;> constructor <;> simp [read_append _ _ _ hp]

theorem legal_filter_ref_frame (st : Session) (p : Nat) (row col : Int) :
    ∀ (ms : List (Int × Int)) (h : Heap), p < h.length →
      hread (legal_filter_ref st p row col h ms).1 p = hread h p ∧
      h.length ≤ (legal_filter_ref st p row col h ms).1.length := by
  intro ms
  induction ms with
  | nil => intro h hp; exact ⟨rfl, le_refl _⟩
  | cons m ms ih =>
    intro h hp
    have h1 := would_be_in_check_ref_frame st h p row col m.1 m.2 hp
    have h2 := ih (would_be_in_check_ref st h p row col m.1 m.2).1
      (lt_of_lt_of_le hp h1.2)
    unfold legal_filter_ref
    exact ⟨h2.1.trans h1.1, h1.2.trans h2.2⟩

/-- C3: in the heap model in which Python board lists are addressed objects
and every subscript assignment of the source is a write at an address,
`make_move` allocates its deep copy at a fresh address (distinct from the
caller board) and writes only there, and `would_be_in_check` and
`get_legal_moves` (which simulates each candidate through
`would_be_in_check`) leave the caller board object untouched: reading the
caller address after any of the three calls returns the original board, so a
rejected move leaves the prior board completely unaffected. -/
theorem C3_frame (st : Session) (h : Heap) (p : Nat) (a b c d : Int)
    (hp : p < h.length) :
    hread (make_move_ref st h p a b c d).1 p = hread h p ∧
    (make_move_ref st h p a b c d).2.1 ≠ p ∧
    hread (would_be_in_check_ref st h p a b c d).1 p = hread h p ∧
    hread (get_legal_moves_ref st h p a b).1 p = hread h p :=
  ⟨(make_move_ref_frame st h p a b c d hp).1,
   (Nat.ne_of_lt hp).symm,
   (would_be_in_check_ref_frame st h p a b c d hp).1,
   (legal_filter_ref_frame st p a b _ h hp).1⟩

theorem C3_frame_witness :
    0 < ([DEFAULT_BOARD] : Heap).length ∧
    hread (make_move_ref initSession [DEFAULT_BOARD] 0 6 4 4 4).1 0 =
      hread [DEFAULT_BOARD] 0 ∧
    hread (would_be_in_check_ref initSession [DEFAULT_BOARD] 0 6 4 4 4).1 0 =
      hread [DEFAULT_BOARD] 0 :=
  ⟨by decide,
   (C3_frame initSession [DEFAULT_BOARD] 0 6 4 4 4 (by decide)).1,
   (C3_frame initSession [DEFAULT_BOARD] 0 6 4 4 4 (by decide)).2.2.1⟩

/-- C10: the empty coordinate string is reported valid with an empty error
message by both validators, for every board, player and `check_piece` flag. -/
theorem C10_empty_coordinate (board : Board) (current_player : String)
    (check_piece : Bool) :
    validate_coordinate "" = (true, "") ∧
    validate_coordinate_with_piece board current_player "" check_piece =
      (true, "") := by
  exact ⟨rfl, rfl⟩

end ChessAnalyzer
